import Mathlib

/-!
# Verification of the stream-replicator election and heartbeat core

Shallow embedding of the leader-election package and the heartbeat
publisher of the repository.  The file embeds:

* `src/election/options.go` — the `options` record, the exported `Option`
  constructors and the process-wide `skipValidate` flag toggled by
  `SkipTTLValidateForTests`;
* the observable assertions of the heartbeat test suite
  (`src/unnamed/part_000`), in particular the metric readings it asserts
  for the two-instance leader-election scenario;
* the parts of the package that the repository snapshot does not ship
  (the election engine's `New`/`Run` loop and the heartbeat publisher),
  modelled from the specification; every such definition carries a doc
  comment starting with `Modelled from the spec:`.

Go `time.Duration` values are embedded as `Nat` (nanoseconds), Go maps
as lookup functions `String → Option String`, and Go callback values as
opaque `Nat` tokens (only their presence matters to the embedded code).
-/

namespace election

/-- Election state: in Go, `State` with `CandidateState` and `LeaderState`. -/
inductive State where
  | candidate
  | leader
deriving DecidableEq, Repr

/-- The `options` struct of `src/election/options.go` (lines 16–28).
`bucket nats.KeyValue` is a nil-able handle, embedded as `Option Unit`;
the callback and backoff fields hold opaque tokens. -/
structure options where
  name : String
  key : String
  bucket : Option Unit
  ttl : Nat
  cInterval : Nat
  replicator : String
  wonCb : Option Nat
  lostCb : Option Nat
  campaignCb : Option Nat
  bo : Option Nat
  debug : Option Nat
deriving DecidableEq, Repr

/-- `WithBackoff` (options.go lines 31–33): sets the backoff source. -/
def WithBackoff (b : Nat) (o : options) : options := { o with bo := some b }

/-- `OnWon` (options.go lines 36–38): sets the won callback. -/
def OnWon (cb : Nat) (o : options) : options := { o with wonCb := some cb }

/-- `OnLost` (options.go lines 41–43): sets the lost callback. -/
def OnLost (cb : Nat) (o : options) : options := { o with lostCb := some cb }

/-- `OnCampaign` (options.go lines 46–48): sets the per-campaign callback. -/
def OnCampaign (cb : Nat) (o : options) : options := { o with campaignCb := some cb }

/-- `WithDebug` (options.go lines 51–53): sets the debug logger. -/
def WithDebug (cb : Nat) (o : options) : options := { o with debug := some cb }

/-- `WithReplicator` (options.go lines 56–58): sets the replicator name. -/
def WithReplicator (r : String) (o : options) : options := { o with replicator := r }

/-- Initial value of the package-level `skipValidate` flag: the Go zero
value of `bool` is `false`. -/
def skipValidateInit : Bool := false

/-- `SkipTTLValidateForTests` (options.go lines 60–63), as a transformer of
the package-level `skipValidate` flag: it unconditionally stores `true`. -/
def SkipTTLValidateForTests (_skipValidate : Bool) : Bool := true

/-- Modelled from the spec: "TTL not comfortably larger than campaign
interval" fails validation.  The spec leaves the exact safety margin
open; it is fixed here as a multiplicative constant. -/
def safetyMargin : Nat := 3

/-- Modelled from the spec: TTL validation passes when the TTL exceeds the
campaign interval by the safety margin. -/
def ttlValidationPasses (ttl cInterval : Nat) : Bool :=
  safetyMargin * cInterval ≤ ttl

/-- Outcome of election construction: either a `ConfigError` (and no
election) or an election (and no error). -/
inductive NewOutcome where
  | configError
  | election
deriving DecidableEq, Repr

/-- Modelled from the spec: `New(options)`, absent from the repository
snapshot.  "Construction fails with a `ConfigError` if `name`, `key`, or
`bucket` is unset, or if TTL validation fails (TTL not comfortably larger
than campaign interval) and test-mode bypass is not active."  The bypass
is the package-level `skipValidate` flag, passed explicitly. -/
def New (skipValidate : Bool) (o : options) : NewOutcome :=
  if o.name = "" then .configError
  else if o.key = "" then .configError
  else if o.bucket = none then .configError
  else if ¬ ttlValidationPasses o.ttl o.cInterval ∧ skipValidate = false then .configError
  else .election

/-- The exported operations of the election package, as they act on the
package-level `skipValidate` flag.  The `Option` constructors and
(modelled from the spec) `New` only read package state; only
`SkipTTLValidateForTests` writes the flag. -/
inductive PkgOp where
  | skipTTLValidateForTests
  | withBackoff (b : Nat)
  | onWon (cb : Nat)
  | onLost (cb : Nat)
  | onCampaign (cb : Nat)
  | withDebug (cb : Nat)
  | withReplicator (r : String)
  | newElection (o : options)
deriving DecidableEq, Repr

/-- Effect of one exported operation on the `skipValidate` flag. -/
def globalAfter (skipValidate : Bool) : PkgOp → Bool
  | .skipTTLValidateForTests => SkipTTLValidateForTests skipValidate
  | _ => skipValidate

/-- Callback events observable during one campaign tick. -/
inductive Event where
  | won
  | lost
  | campaign (s : State)
deriving DecidableEq, Repr

/-- Modelled from the spec: one tick of the election loop (`Run`, absent
from the repository snapshot), given whether the single store operation of
the tick (create-if-absent for a candidate, compare-and-swap renewal for a
leader) succeeds.  Returns the post-tick state and the callback events of
the tick in order: the transition callback (`wonCb` on Candidate→Leader,
`lostCb` on Leader→Candidate), then `campaignCb` with the current —
post-transition — state. -/
def tickEvents (s : State) (storeOpOk : Bool) : State × List Event :=
  match s, storeOpOk with
  | .candidate, true => (.leader, [.won, .campaign .leader])
  | .candidate, false => (.candidate, [.campaign .candidate])
  | .leader, true => (.leader, [.campaign .leader])
  | .leader, false => (.candidate, [.lost, .campaign .candidate])

/-- One step of trace accumulation: run a tick from the accumulated state
and append its events to the accumulated history. -/
def traceStep (acc : State × List Event) (ok : Bool) : State × List Event :=
  ((tickEvents acc.1 ok).1, acc.2 ++ (tickEvents acc.1 ok).2)

/-- Iterated campaign ticks: the final state and the concatenated event
history over a sequence of store-operation outcomes. -/
def ticksTrace (s : State) (oks : List Bool) : State × List Event :=
  oks.foldl traceStep (s, [])

/-- Does an event call `campaignCb`? -/
def Event.isCampaign : Event → Bool
  | .campaign _ => true
  | _ => false

/-- The distributed election system, modelled from the spec: `n` competing
instances share one KV entry.  `owner` is the current holder of the entry
(`none` when absent or expired), `st i` is instance `i`'s local state and
`alive i` records whether instance `i` is still running. -/
structure Sys (n : Nat) where
  owner : Option (Fin n)
  st : Fin n → State
  alive : Fin n → Bool

/-- Modelled from the spec: one campaign tick of instance `i` against the
shared KV entry.  A candidate attempts a create-if-absent write (success
exactly when the key is absent, first-writer-wins); a leader attempts a
compare-and-swap renewal (success exactly when it still owns the key), and
on failure transitions back to candidate. -/
def campaignTick {n : Nat} (s : Sys n) (i : Fin n) : Sys n :=
  if s.st i = State.leader then
    if s.owner = some i then s
    else { s with st := Function.update s.st i State.candidate }
  else
    if s.owner = none then
      { s with owner := some i, st := Function.update s.st i State.leader }
    else s

/-- Events of the distributed model: a campaign tick by one instance, a
crash (the instance stops running and stops renewing), and TTL expiry of
the key.  Per the spec's TTL invariant — the TTL comfortably exceeds the
campaign interval, "so a live leader's normal renewal cadence never races
its own lease expiry" — expiry can only strike a key whose owner is no
longer alive. -/
inductive Step (n : Nat) where
  | tick (i : Fin n)
  | crash (i : Fin n)
  | expire
deriving DecidableEq, Repr

/-- Modelled from the spec: the effect of one scheduler step on the
system.  Crashed instances no longer tick; expiry removes the key only
once its owner has disappeared. -/
def doStep {n : Nat} (s : Sys n) : Step n → Sys n
  | .tick i => if s.alive i then campaignTick s i else s
  | .crash i => { s with alive := Function.update s.alive i false }
  | .expire =>
    match s.owner with
    | none => s
    | some j => if s.alive j then s else { s with owner := none }

/-- A run of the distributed model over a schedule of steps. -/
def runSys {n : Nat} (s : Sys n) (steps : List (Step n)) : Sys n :=
  steps.foldl doStep s

/-- The initial system: key absent, every instance a live candidate. -/
def initSys (n : Nat) : Sys n :=
  { owner := none, st := fun _ => State.candidate, alive := fun _ => true }

/-- A step is a crash. -/
def Step.isCrash {n : Nat} : Step n → Bool
  | .crash _ => true
  | _ => false

/-- At most one live instance is in the `Leader` state. -/
def atMostOneActive {n : Nat} (s : Sys n) : Prop :=
  ∀ i j : Fin n, s.alive i = true → s.alive j = true →
    s.st i = State.leader → s.st j = State.leader → i = j

/-- The key invariant of the distributed model: every live leader owns the
shared key. -/
def OwnerInv {n : Nat} (s : Sys n) : Prop :=
  ∀ i : Fin n, s.alive i = true → s.st i = State.leader → s.owner = some i

/-- The election has settled on instance `j`: `j` is a live leader owning
the key and every other instance is a candidate. -/
def settledAt {n : Nat} (s : Sys n) (j : Fin n) : Prop :=
  s.owner = some j ∧ s.st j = State.leader ∧ s.alive j = true ∧
    ∀ k : Fin n, k ≠ j → s.st k = State.candidate

end election

namespace heartbeat

/-- Modelled from the spec: the name of the originator header; the spec
calls it `Originator` (= local hostname). -/
def OriginatorHeader : String := "Originator"

/-- Modelled from the spec: the name of the subject header; the spec
calls it `Subject` (= destination subject name). -/
def SubjectHeader : String := "Subject"

/-- Modelled from the spec: merge of the custom header maps, Go maps
embedded as lookup functions.  "subject-level overrides global on key
collision"; a key absent from the subject map falls back to the global
map. -/
def mergeHeaders (global subj : String → Option String) : String → Option String :=
  fun k =>
    match subj k with
    | some v => some v
    | none => global k

/-- A message as handed to the publish capability: a body and a header
lookup. -/
structure Message where
  body : String
  headers : String → Option String

/-- Modelled from the spec: the message built for one publish on one
subject.  "body = ASCII decimal Unix timestamp in seconds; headers include
`Originator` (= local hostname), `Subject` (= the destination subject
name), plus merged custom headers". -/
def buildMessage (now : Nat) (hostname subjName : String)
    (global subjHdrs : String → Option String) : Message :=
  { body := Nat.repr now
    headers := fun k =>
      if k = OriginatorHeader then some hostname
      else if k = SubjectHeader then some subjName
      else mergeHeaders global subjHdrs k }

/-- The per-subject Prometheus counters: `hbPublishedCtr` and
`hbPublishedCtrErr` for one `(replicator, subject)` label pair. -/
structure SubjectCounters where
  published : Nat
  publishedErr : Nat
deriving DecidableEq, Repr

/-- Modelled from the spec: the effect of one publish attempt on the
counters.  "on success increment `hbPublishedCtr`; on failure increment
`hbPublishedCtrErr` and continue". -/
def publishTick (c : SubjectCounters) (ok : Bool) : SubjectCounters :=
  if ok then { c with published := c.published + 1 }
  else { c with publishedErr := c.publishedErr + 1 }

/-- Modelled from the spec: a subject's publish loop over a sequence of
attempt outcomes.  A failed publish is logged and counted but never
terminates the loop, so every outcome in the sequence is processed. -/
def publishLoop (c : SubjectCounters) (oks : List Bool) : SubjectCounters :=
  oks.foldl publishTick c

/-- The election callbacks the heartbeat publisher wires in: `wonCb` and
`lostCb` (the only writers of the shared paused flag). -/
inductive HbEvent where
  | won
  | lost
deriving DecidableEq, Repr

/-- Modelled from the spec: initial paused flag of a publisher with leader
election enabled — the initial state is INACTIVE (`paused = true`). -/
def hbPausedInit : Bool := true

/-- Modelled from the spec: effect of an election callback on the shared
paused flag: `wonCb` stores `false`, `lostCb` stores `true`. -/
def applyHbEvent (_paused : Bool) : HbEvent → Bool
  | .won => false
  | .lost => true

/-- The paused flag after a history of election callbacks, starting from
the INACTIVE state. -/
def pausedAfter (evs : List HbEvent) : Bool :=
  evs.foldl applyHbEvent hbPausedInit

/-- Modelled from the spec: whether one subject tick publishes.  "if
leader election is enabled and currently paused, skip publication";
without leader election, publication is unconditional. -/
def subjectTickPublishes (leaderElection paused : Bool) : Bool :=
  !leaderElection || !paused

/-- Embedded from `src/unnamed/part_000` line 212: the heartbeat test
asserts that the ACTIVE (leader, publishing) instance reads
`hbPaused` = 1. -/
def testAssertedHbPausedActive : Nat := 1

/-- Embedded from `src/unnamed/part_000` line 211: the heartbeat test
asserts that the INACTIVE (paused) instance reads `hbPaused` = 0. -/
def testAssertedHbPausedInactive : Nat := 0

/-- The `hbPaused` gauge reading as the repository's test pins it, as a
function of the instance's paused flag. -/
def testHbPausedReading (paused : Bool) : Nat :=
  if paused then testAssertedHbPausedInactive else testAssertedHbPausedActive

/-- The `hbPaused` gauge value the spec prescribes: "1 while paused,
0 while active". -/
def claimHbPausedValue (paused : Bool) : Nat :=
  if paused then 1 else 0

/-- The paused flag of instance `j` in a run of the distributed election
model: the flag is the inverse of being Leader (a candidate — including
one that never won — is paused). -/
def pausedIn {n : Nat} (s : election.Sys n) (j : Fin n) : Bool :=
  if s.st j = election.State.leader then false else true

/-- Key of the global custom header configured by the test
(`src/unnamed/part_000` lines 129–131). -/
def test1Key : String := "test1"

/-- Value of the global custom header configured by the test. -/
def test1Value : String := "value1"

/-- Key of the subject-level custom header configured by the test
(`src/unnamed/part_000` lines 132–134). -/
def test2Key : String := "test2"

/-- Value of the subject-level custom header configured by the test. -/
def test2Value : String := "value2"

/-- The global `Headers` map configured by the test, as a lookup. -/
def testGlobalHeaders : String → Option String :=
  fun k => if k = test1Key then some test1Value else none

/-- The subject-level `Headers` map configured by the test, as a lookup. -/
def testSubjectHeaders : String → Option String :=
  fun k => if k = test2Key then some test2Value else none

end heartbeat

/-! ## Helper lemmas -/

namespace election

/-- The initial system satisfies the ownership invariant (no leaders). -/
theorem ownerInv_initSys (n : Nat) : OwnerInv (initSys n) := by
  intro i _ h
  simp [initSys] at h

/-- The ownership invariant forces mutual exclusion of live leaders. -/
theorem atMostOneActive_of_ownerInv {n : Nat} {s : Sys n} (h : OwnerInv s) :
    atMostOneActive s := by
  intro i j hai haj hli hlj
  exact Option.some.inj ((h i hai hli).symm.trans (h j haj hlj))

/-- The ownership invariant is preserved by every step of the model. -/
theorem ownerInv_doStep {n : Nat} {s : Sys n} (h : OwnerInv s) (st : Step n) :
    OwnerInv (doStep s st) := by
  cases st with
  | tick i =>
    simp only [doStep]
    by_cases hal : s.alive i = true
    · rw [if_pos hal]
      unfold campaignTick
      by_cases hld : s.st i = State.leader
      · rw [if_pos hld]
        by_cases how : s.owner = some i
        · rw [if_pos how]; exact h
        · rw [if_neg how]
          intro m ham hlm
          dsimp only at ham hlm ⊢
          by_cases hmi : m = i
          · subst hmi
            rw [Function.update_same] at hlm
            cases hlm
          · rw [Function.update_noteq hmi] at hlm
            exact h m ham hlm
      · rw [if_neg hld]
        by_cases how : s.owner = none
        · rw [if_pos how]
          intro m ham hlm
          dsimp only at ham hlm ⊢
          by_cases hmi : m = i
          · subst hmi; rfl
          · rw [Function.update_noteq hmi] at hlm
            have hmown := h m ham hlm
            rw [how] at hmown
            cases hmown
        · rw [if_neg how]; exact h
    · rw [if_neg hal]; exact h
  | crash i =>
    intro m ham hlm
    simp only [doStep] at ham hlm ⊢
    by_cases hmi : m = i
    · subst hmi
      rw [Function.update_same] at ham
      cases ham
    · rw [Function.update_noteq hmi] at ham
      exact h m ham hlm
  | expire =>
    simp only [doStep]
    cases how : s.owner with
    | none => exact h
    | some j =>
      dsimp only
      by_cases halj : s.alive j = true
      · rw [if_pos halj]; exact h
      · rw [if_neg halj]
        intro m ham hlm
        dsimp only at ham hlm ⊢
        have hmown := h m ham hlm
        rw [how] at hmown
        have hjm : j = m := Option.some.inj hmown
        subst hjm
        exact absurd ham halj

/-- The ownership invariant holds along every run. -/
theorem ownerInv_runSys {n : Nat} (steps : List (Step n)) :
    ∀ s : Sys n, OwnerInv s → OwnerInv (runSys s steps) := by
  induction steps with
  | nil => intro s h; exact h
  | cons st rest ih =>
    intro s h
    exact ih _ (ownerInv_doStep h st)

/-- Once the election has settled on `j`, every non-crash step keeps it
settled on `j`. -/
theorem settledAt_doStep {n : Nat} {s : Sys n} {j : Fin n}
    (h : settledAt s j) (st : Step n) (hnc : st.isCrash = false) :
    settledAt (doStep s st) j := by
  obtain ⟨how, hst, hal, hoth⟩ := h
  cases st with
  | tick i =>
    simp only [doStep]
    by_cases hai : s.alive i = true
    · rw [if_pos hai]
      unfold campaignTick
      by_cases hij : i = j
      · subst hij
        rw [if_pos hst, if_pos how]
        exact ⟨how, hst, hal, hoth⟩
      · have hcand : s.st i = State.candidate := hoth i hij
        rw [if_neg (by rw [hcand]; exact fun hh => State.noConfusion hh),
          if_neg (by rw [how]; exact fun hh => Option.noConfusion hh)]
        exact ⟨how, hst, hal, hoth⟩
    · rw [if_neg hai]
      exact ⟨how, hst, hal, hoth⟩
  | crash i => simp [Step.isCrash] at hnc
  | expire =>
    simp only [doStep, how]
    rw [if_pos hal]
    exact ⟨how, hst, hal, hoth⟩

/-- Once settled, a crash-free schedule keeps the election settled. -/
theorem settledAt_runSys {n : Nat} {j : Fin n} (steps : List (Step n)) :
    ∀ s : Sys n, settledAt s j → (∀ st ∈ steps, st.isCrash = false) →
      settledAt (runSys s steps) j := by
  induction steps with
  | nil => intro s h _; exact h
  | cons st rest ih =>
    intro s h hnc
    exact ih _ (settledAt_doStep h st (hnc st (List.mem_cons_self st rest)))
      (fun x hx => hnc x (List.mem_cons_of_mem st hx))

/-- The first tick from the initial system settles the election on the
ticking instance. -/
theorem settledAt_first_tick {n : Nat} (i : Fin n) :
    settledAt (doStep (initSys n) (Step.tick i)) i := by
  have hstep : doStep (initSys n) (Step.tick i) = campaignTick (initSys n) i := by
    simp [doStep, initSys]
  rw [hstep]
  unfold campaignTick initSys
  rw [if_neg (fun hh => State.noConfusion hh), if_pos rfl]
  refine ⟨rfl, ?_, rfl, ?_⟩
  · exact Function.update_same ..
  · intro k hk
    exact Function.update_noteq hk ..

end election

namespace election

/-- A confirmed leader whose renewals all succeed stays leader and only
accumulates `campaignCb` events. -/
theorem leaderTrace_aux (m : Nat) :
    ∀ evs : List Event,
      (List.replicate m true).foldl traceStep (State.leader, evs) =
        (State.leader, evs ++ List.replicate m (Event.campaign State.leader)) := by
  induction m with
  | zero => intro evs; simp
  | succ k ih =>
    intro evs
    rw [List.replicate_succ, List.foldl_cons]
    have hstep : traceStep (State.leader, evs) true =
        (State.leader, evs ++ [Event.campaign State.leader]) := rfl
    rw [hstep, ih]
    simp [List.replicate_succ]

/-- Every exported operation keeps a set `skipValidate` flag set. -/
theorem globalAfter_true (op : PkgOp) : globalAfter true op = true := by
  cases op <;> rfl

/-- A set `skipValidate` flag survives any sequence of exported
operations. -/
theorem globalAfter_foldl (ops : List PkgOp) :
    ops.foldl globalAfter true = true := by
  induction ops with
  | nil => rfl
  | cons op rest ih =>
    rw [List.foldl_cons, globalAfter_true op]
    exact ih

end election

namespace heartbeat

/-- Counting lemma for the publish loop: successes and failures are
tallied into the two counters and every outcome is processed. -/
theorem publishLoop_counts (oks : List Bool) :
    ∀ c : SubjectCounters,
      (publishLoop c oks).published = c.published + oks.count true ∧
      (publishLoop c oks).publishedErr = c.publishedErr + oks.count false := by
  induction oks with
  | nil => intro c; simp [publishLoop]
  | cons b rest ih =>
    intro c
    have hloop : publishLoop c (b :: rest) = publishLoop (publishTick c b) rest := rfl
    rw [hloop]
    obtain ⟨hp, he⟩ := ih (publishTick c b)
    cases b
    · constructor
      · rw [hp]
        simp [publishTick, List.count_cons]
      · rw [he]
        simp [publishTick, List.count_cons]
        omega
    · constructor
      · rw [hp]
        simp [publishTick, List.count_cons]
        omega
      · rw [he]
        simp [publishTick, List.count_cons]

/-- On a list of booleans, the counts of `true` and `false` sum to the
length. -/
theorem count_true_false (oks : List Bool) :
    oks.count true + oks.count false = oks.length := by
  induction oks with
  | nil => rfl
  | cons b rest ih =>
    cases b <;> simp [List.count_cons] <;> omega

/-- The paused flag stays `true` along any callback history that contains
no `won` callback. -/
theorem paused_foldl_no_won (evs : List HbEvent) :
    ∀ p : Bool, p = true → HbEvent.won ∉ evs → evs.foldl applyHbEvent p = true := by
  induction evs with
  | nil =>
    intro p hp _
    exact hp
  | cons e rest ih =>
    intro p _ hmem
    cases e with
    | won => exact absurd (List.mem_cons_self _ _) hmem
    | lost =>
      rw [List.foldl_cons]
      exact ih _ rfl (fun hh => hmem (List.mem_cons_of_mem _ hh))

end heartbeat

/-! ## Claim theorems -/

/-- C5: election construction returns a `ConfigError` (and no election)
exactly when `name`, `key` or `bucket` is unset, or TTL validation fails
while the test-mode bypass is inactive; otherwise it returns an election
and no error. -/
theorem c5_new_config_error_iff (skip : Bool) (o : election.options) :
    election.New skip o = election.NewOutcome.configError ↔
      (o.name = "" ∨ o.key = "" ∨ o.bucket = none ∨
        (election.ttlValidationPasses o.ttl o.cInterval = false ∧ skip = false)) := by
  unfold election.New
  split_ifs with h1 h2 h3 h4
  · simp [h1]
  · simp [h2]
  · simp [h3]
  · simp only [Bool.not_eq_true] at h4
    simp [h4.1, h4.2]
  · simp only [Bool.not_eq_true] at h4
    constructor
    · intro hh
      cases hh
    · intro hh
      rcases hh with hh | hh | hh | hh
      · exact absurd hh h1
      · exact absurd hh h2
      · exact absurd hh h3
      · exact absurd hh h4

/-- Witness for C5: an options value with an empty name is rejected with
a `ConfigError`. -/
theorem c5_new_config_error_iff_witness :
    election.New false
      { name := "", key := "heartbeat_lock", bucket := some (),
        ttl := 10, cInterval := 1, replicator := "", wonCb := none, lostCb := none,
        campaignCb := none, bo := none, debug := none }
      = election.NewOutcome.configError :=
  (c5_new_config_error_iff false _).mpr (Or.inl rfl)

/-- C6: on every tick of the election loop, `campaignCb` fires exactly
once, as the last event of the tick, and its argument is the post-tick
(post-transition) state, so the callback observes the updated state. -/
theorem c6_campaign_once_after_transition (s : election.State) (ok : Bool) :
    (election.tickEvents s ok).2.countP (fun e => e.isCampaign) = 1 ∧
      (election.tickEvents s ok).2.getLast? =
        some (election.Event.campaign (election.tickEvents s ok).1) := by
  cases s <;> cases ok <;> decide

/-- C7: repeated campaign ticks by a confirmed leader whose renewals all
succeed keep the state `Leader` and produce only `campaignCb` events —
`wonCb`/`lostCb` never fire again. -/
theorem c7_leader_ticks_idempotent (m : Nat) :
    election.ticksTrace election.State.leader (List.replicate m true) =
      (election.State.leader,
        List.replicate m (election.Event.campaign election.State.leader)) ∧
    (election.ticksTrace election.State.leader (List.replicate m true)).2.all
      (fun e => e.isCampaign) = true ∧
    (election.ticksTrace election.State.leader (List.replicate m true)).2.length = m := by
  have htr := election.leaderTrace_aux m []
  have hmain : election.ticksTrace election.State.leader (List.replicate m true) =
      (election.State.leader,
        List.replicate m (election.Event.campaign election.State.leader)) := by
    unfold election.ticksTrace
    rw [htr]
    simp
  refine ⟨hmain, ?_, ?_⟩
  · rw [hmain]
    simp only [List.all_eq_true]
    intro e he
    rw [List.eq_of_mem_replicate he]
    rfl
  · rw [hmain]
    simp

/-- C10: `SkipTTLValidateForTests` sets the process-wide `skipValidate`
flag to `true`; no exported operation of the election package resets it,
so any sequence of exported operations keeps it set, and every election
constructed afterwards skips TTL validation (construction succeeds for
well-named options regardless of TTL). -/
theorem c10_skip_validate_sticky :
    (∀ g : Bool, election.SkipTTLValidateForTests g = true) ∧
    (∀ ops : List election.PkgOp, ops.foldl election.globalAfter true = true) ∧
    (∀ o : election.options, o.name ≠ "" → o.key ≠ "" → o.bucket ≠ none →
      election.New true o = election.NewOutcome.election) := by
  refine ⟨fun _ => rfl, election.globalAfter_foldl, ?_⟩
  intro o h1 h2 h3
  unfold election.New
  rw [if_neg h1, if_neg h2, if_neg h3, if_neg]
  intro hh
  exact Bool.noConfusion hh.2

/-- Witness for C10: after setting the flag, an election whose TTL would
fail validation (TTL 0 against interval 100) is still constructed, and
a sample operation sequence keeps the flag set. -/
theorem c10_skip_validate_sticky_witness :
    election.New true
      { name := "test_replicator1_HB", key := "heartbeat_lock",
        bucket := some (), ttl := 0, cInterval := 100, replicator := "",
        wonCb := none, lostCb := none, campaignCb := none, bo := none,
        debug := none }
      = election.NewOutcome.election ∧
    [election.PkgOp.skipTTLValidateForTests,
      election.PkgOp.onWon 0].foldl election.globalAfter true = true :=
  ⟨c10_skip_validate_sticky.2.2 _ (by decide) (by decide) (by decide),
    c10_skip_validate_sticky.2.1 _⟩

/-- C3: every published heartbeat message has the decimal representation
of the publish-time Unix timestamp as its body, carries the `Originator`
header equal to the local hostname and the `Subject` header equal to the
destination subject name. -/
theorem c3_message_well_formed (now : Nat) (hostname subjName : String)
    (global subjHdrs : String → Option String) :
    (heartbeat.buildMessage now hostname subjName global subjHdrs).body = Nat.repr now ∧
    (heartbeat.buildMessage now hostname subjName global subjHdrs).headers
      heartbeat.OriginatorHeader = some hostname ∧
    (heartbeat.buildMessage now hostname subjName global subjHdrs).headers
      heartbeat.SubjectHeader = some subjName := by
  refine ⟨rfl, ?_, ?_⟩
  · unfold heartbeat.buildMessage
    dsimp only
    rw [if_pos rfl]
  · unfold heartbeat.buildMessage
    dsimp only
    rw [if_neg (by decide), if_pos rfl]

/-- C4: the headers applied to a published message are the global map
merged with the subject map: a key of the subject map keeps its
subject-level value (subject wins on collision), a key only in the global
map keeps its global value (global entries are never dropped), a key is
absent from the merge exactly when it is absent from both maps, and the
merge is what `buildMessage` applies on every non-reserved key. -/
theorem c4_merged_headers (global subjHdrs : String → Option String) (k : String) :
    (∀ v, subjHdrs k = some v →
      heartbeat.mergeHeaders global subjHdrs k = some v) ∧
    (subjHdrs k = none →
      heartbeat.mergeHeaders global subjHdrs k = global k) ∧
    (heartbeat.mergeHeaders global subjHdrs k = none ↔
      subjHdrs k = none ∧ global k = none) ∧
    (k ≠ heartbeat.OriginatorHeader → k ≠ heartbeat.SubjectHeader →
      ∀ now hostname subjName,
        (heartbeat.buildMessage now hostname subjName global subjHdrs).headers k =
          heartbeat.mergeHeaders global subjHdrs k) := by
  refine ⟨?_, ?_, ?_, ?_⟩
  · intro v hv
    unfold heartbeat.mergeHeaders
    rw [hv]
  · intro hn
    unfold heartbeat.mergeHeaders
    rw [hn]
  · unfold heartbeat.mergeHeaders
    cases hs : subjHdrs k with
    | none => simp
    | some v => simp
  · intro h1 h2 now hostname subjName
    unfold heartbeat.buildMessage
    dsimp only
    rw [if_neg h1, if_neg h2]

/-- Witness for C4, at the header maps the test configures: the merged
headers carry both the global `test1` entry and the subject-level `test2`
entry, as the test asserts of the received message. -/
theorem c4_merged_headers_witness :
    heartbeat.mergeHeaders heartbeat.testGlobalHeaders heartbeat.testSubjectHeaders
      heartbeat.test2Key = some heartbeat.test2Value ∧
    heartbeat.mergeHeaders heartbeat.testGlobalHeaders heartbeat.testSubjectHeaders
      heartbeat.test1Key = some heartbeat.test1Value :=
  ⟨(c4_merged_headers heartbeat.testGlobalHeaders heartbeat.testSubjectHeaders
      heartbeat.test2Key).1 heartbeat.test2Value (by decide),
    ((c4_merged_headers heartbeat.testGlobalHeaders heartbeat.testSubjectHeaders
      heartbeat.test1Key).2.1 (by decide)).trans (by decide)⟩

/-- C8: in a subject's publish loop, a successful publish increments
`hbPublishedCtr` by one, a failed publish increments `hbPublishedCtrErr`
by one, and a failure never terminates the loop: over any sequence of
outcomes every tick is processed, the counters tallying exactly the
successes and the failures. -/
theorem c8_publish_counters :
    (∀ c : heartbeat.SubjectCounters,
      (heartbeat.publishTick c true).published = c.published + 1 ∧
      (heartbeat.publishTick c true).publishedErr = c.publishedErr) ∧
    (∀ c : heartbeat.SubjectCounters,
      (heartbeat.publishTick c false).published = c.published ∧
      (heartbeat.publishTick c false).publishedErr = c.publishedErr + 1) ∧
    (∀ (oks : List Bool) (c : heartbeat.SubjectCounters),
      (heartbeat.publishLoop c oks).published = c.published + oks.count true ∧
      (heartbeat.publishLoop c oks).publishedErr = c.publishedErr + oks.count false ∧
      (heartbeat.publishLoop c oks).published + (heartbeat.publishLoop c oks).publishedErr =
        c.published + c.publishedErr + oks.length) := by
  refine ⟨fun c => ⟨rfl, rfl⟩, fun c => ⟨rfl, rfl⟩, ?_⟩
  intro oks c
  obtain ⟨hp, he⟩ := heartbeat.publishLoop_counts oks c
  refine ⟨hp, he, ?_⟩
  rw [hp, he]
  have hc := heartbeat.count_true_false oks
  omega

/-- C9: with leader election enabled, the publisher starts INACTIVE — the
shared paused flag is `true` from construction and stays `true` along any
callback history in which `wonCb` has not yet fired, so no subject tick
publishes before leadership is first won. -/
theorem c9_initially_paused :
    heartbeat.pausedAfter [] = true ∧
    (∀ evs : List heartbeat.HbEvent, heartbeat.HbEvent.won ∉ evs →
      heartbeat.pausedAfter evs = true ∧
      heartbeat.subjectTickPublishes true (heartbeat.pausedAfter evs) = false) := by
  refine ⟨rfl, ?_⟩
  intro evs hmem
  have hp : heartbeat.pausedAfter evs = true :=
    heartbeat.paused_foldl_no_won evs heartbeat.hbPausedInit rfl hmem
  refine ⟨hp, ?_⟩
  rw [heartbeat.subjectTickPublishes, hp]
  rfl

/-- Witness for C9: after a history holding only a `lostCb` call, the
publisher is still paused and a subject tick does not publish. -/
theorem c9_initially_paused_witness :
    heartbeat.pausedAfter [heartbeat.HbEvent.lost] = true ∧
    heartbeat.subjectTickPublishes true
      (heartbeat.pausedAfter [heartbeat.HbEvent.lost]) = false :=
  c9_initially_paused.2 [heartbeat.HbEvent.lost] (by decide)

/-- C2: in the distributed election model, at most one live instance is in
the `Leader` state after any schedule from the initial system; and once an
instance ticks first against the empty key, any crash-free schedule leaves
exactly that instance as the leader, every other instance remaining a
candidate — with two instances the paused flags of the two differ. -/
theorem c2_mutual_exclusion_and_settling :
    (∀ (n : Nat) (steps : List (election.Step n)),
      election.atMostOneActive (election.runSys (election.initSys n) steps)) ∧
    (∀ (n : Nat) (i : Fin n) (steps : List (election.Step n)),
      (∀ st ∈ steps, st.isCrash = false) →
      election.settledAt
        (election.runSys (election.initSys n) (election.Step.tick i :: steps)) i) ∧
    (∀ (i : Fin 2) (steps : List (election.Step 2)),
      (∀ st ∈ steps, st.isCrash = false) →
      ∃ a b : Fin 2, a ≠ b ∧
        (election.runSys (election.initSys 2) (election.Step.tick i :: steps)).st a =
          election.State.leader ∧
        (election.runSys (election.initSys 2) (election.Step.tick i :: steps)).st b =
          election.State.candidate ∧
        heartbeat.pausedIn
          (election.runSys (election.initSys 2) (election.Step.tick i :: steps)) a = false ∧
        heartbeat.pausedIn
          (election.runSys (election.initSys 2) (election.Step.tick i :: steps)) b = true) := by
  refine ⟨?_, ?_, ?_⟩
  · intro n steps
    exact election.atMostOneActive_of_ownerInv
      (election.ownerInv_runSys steps _ (election.ownerInv_initSys n))
  · intro n i steps hnc
    exact election.settledAt_runSys steps _ (election.settledAt_first_tick i) hnc
  · intro i steps hnc
    have hsettled : election.settledAt
        (election.runSys (election.initSys 2) (election.Step.tick i :: steps)) i :=
      election.settledAt_runSys steps _ (election.settledAt_first_tick i) hnc
    obtain ⟨how, hst, hal, hoth⟩ := hsettled
    have hbne : i + 1 ≠ i := by fin_cases i <;> decide
    have hcand := hoth (i + 1) hbne
    refine ⟨i, i + 1, fun hh => hbne hh.symm, hst, hcand, ?_, ?_⟩
    · unfold heartbeat.pausedIn
      rw [if_pos hst]
    · unfold heartbeat.pausedIn
      rw [if_neg (by rw [hcand]; exact fun hh => election.State.noConfusion hh)]

/-- Witness for C2: the two-instance system in which instance 0 ticks
once: mutual exclusion holds and the election has settled on instance
0. -/
theorem c2_mutual_exclusion_and_settling_witness :
    election.atMostOneActive (election.runSys (election.initSys 2) [election.Step.tick 0]) ∧
    election.settledAt (election.runSys (election.initSys 2) [election.Step.tick 0]) 0 :=
  ⟨c2_mutual_exclusion_and_settling.1 2 [election.Step.tick 0],
    c2_mutual_exclusion_and_settling.2.1 2 0 [] (by simp)⟩

/-- C1 counterexample: in the concrete two-instance run in which instance
0 wins the election (so instance 0 is active, instance 1 paused), the
`hbPaused` readings the repository's test asserts
(`src/unnamed/part_000` lines 211–212) are 1 for the active instance and
0 for the paused one — the inverse of the values the claim prescribes for
both instances. -/
theorem c1_hbPaused_counterexample :
    heartbeat.pausedIn (election.runSys (election.initSys 2) [election.Step.tick 0]) 0
      = false ∧
    heartbeat.pausedIn (election.runSys (election.initSys 2) [election.Step.tick 0]) 1
      = true ∧
    heartbeat.testHbPausedReading
        (heartbeat.pausedIn (election.runSys (election.initSys 2) [election.Step.tick 0]) 0)
      ≠ heartbeat.claimHbPausedValue
        (heartbeat.pausedIn (election.runSys (election.initSys 2) [election.Step.tick 0]) 0) ∧
    heartbeat.testHbPausedReading
        (heartbeat.pausedIn (election.runSys (election.initSys 2) [election.Step.tick 0]) 1)
      ≠ heartbeat.claimHbPausedValue
        (heartbeat.pausedIn (election.runSys (election.initSys 2) [election.Step.tick 0]) 1) := by
  decide

/-- C1 (amended): in any settled two-instance run, the active (leader)
instance reads `hbPaused` = 1 and the paused (candidate) instance reads
`hbPaused` = 0, as the repository's test asserts — the inverse of the
gauge polarity the spec describes. -/
theorem c1_hbPaused_amended (i : Fin 2) (steps : List (election.Step 2))
    (hnc : ∀ st ∈ steps, st.isCrash = false) :
    ∃ a b : Fin 2, a ≠ b ∧
      heartbeat.pausedIn
        (election.runSys (election.initSys 2) (election.Step.tick i :: steps)) a = false ∧
      heartbeat.pausedIn
        (election.runSys (election.initSys 2) (election.Step.tick i :: steps)) b = true ∧
      heartbeat.testHbPausedReading
        (heartbeat.pausedIn
          (election.runSys (election.initSys 2) (election.Step.tick i :: steps)) a) = 1 ∧
      heartbeat.testHbPausedReading
        (heartbeat.pausedIn
          (election.runSys (election.initSys 2) (election.Step.tick i :: steps)) b) = 0 := by
  have hsettled : election.settledAt
      (election.runSys (election.initSys 2) (election.Step.tick i :: steps)) i :=
    election.settledAt_runSys steps _ (election.settledAt_first_tick i) hnc
  obtain ⟨how, hst, hal, hoth⟩ := hsettled
  have hbne : i + 1 ≠ i := by fin_cases i <;> decide
  have hcand := hoth (i + 1) hbne
  have hpa : heartbeat.pausedIn
      (election.runSys (election.initSys 2) (election.Step.tick i :: steps)) i = false := by
    unfold heartbeat.pausedIn
    rw [if_pos hst]
  have hpb : heartbeat.pausedIn
      (election.runSys (election.initSys 2) (election.Step.tick i :: steps)) (i + 1) = true := by
    unfold heartbeat.pausedIn
    rw [if_neg (by rw [hcand]; exact fun hh => election.State.noConfusion hh)]
  refine ⟨i, i + 1, fun hh => hbne hh.symm, hpa, hpb, ?_, ?_⟩
  · rw [hpa]
    rfl
  · rw [hpb]
    rfl

/-- Witness for the amended C1: the concrete run in which instance 0
ticks once. -/
theorem c1_hbPaused_amended_witness :
    ∃ a b : Fin 2, a ≠ b ∧
      heartbeat.pausedIn (election.runSys (election.initSys 2) [election.Step.tick 0]) a
        = false ∧
      heartbeat.pausedIn (election.runSys (election.initSys 2) [election.Step.tick 0]) b
        = true ∧
      heartbeat.testHbPausedReading
        (heartbeat.pausedIn (election.runSys (election.initSys 2) [election.Step.tick 0]) a)
        = 1 ∧
      heartbeat.testHbPausedReading
        (heartbeat.pausedIn (election.runSys (election.initSys 2) [election.Step.tick 0]) b)
        = 0 :=
  c1_hbPaused_amended 0 [] (by simp)
